import Mathlib

/-!
Verification of the live-voice session manager: a shallow embedding of the
LiveVoice component and the audio codec helpers, together with proofs of the
behavioural properties stated in the specification.

The embedding models the component state as an explicit record, the remote
server messages as a tagged record, and each callback of the source
(onmessage, onclose, onerror, connect, disconnect helpers) as a pure state
transition.  Device time and wall-clock time are passed in explicitly.
Real-valued audio quantities are modelled over the rationals; the only
floating-point operations involved (scaling by the power of two 32768,
truncation, and division by 32768) are exact in binary floating point on the
ranges in question, so the rational model is faithful.
-/

namespace LiveVoice

/-- Conversational side of a transcript item: the user or the model (agent). -/
inductive Role
  | user
  | model
  deriving DecidableEq

/-- A committed transcript entry (the ChatMessage record of the source). -/
structure ChatMessage where
  id : String
  role : Role
  text : String
  timestamp : ℕ
  deriving DecidableEq

/-- The ephemeral realtime partial view (the realtimeText state). -/
structure RealtimeText where
  role : Role
  text : String
  deriving DecidableEq

/-- Session status: the status state of the component. -/
inductive Status
  | disconnected
  | connecting
  | connected
  | error
  deriving DecidableEq

/-- A scheduled playback source (an AudioBufferSourceNode held in sourcesRef):
its start time on the output device clock and its duration. -/
structure Source where
  start : ℚ
  duration : ℚ
  deriving DecidableEq

/-- The LiveVoice component state: the React state hooks and the mutable refs
that the live session callbacks read and write. -/
structure LiveState where
  status : Status
  isConnected : Bool
  errorMessage : String
  permissionDenied : Bool
  transcript : List ChatMessage
  realtimeText : Option RealtimeText
  nextStartTime : ℚ
  sources : List Source
  inputBuffer : String
  outputBuffer : String
  captureActive : Bool
  micActive : Bool
  deriving DecidableEq

/-- The base64 alphabet used by the btoa and atob platform functions. -/
def b64chars : List Char :=
  ("ABCDEFGHIJKLMNOPQRSTUVWXYZabcdefghijklmnopqrstuvwxyz0123456789+/").toList

/-- Value-to-character table lookup performed by btoa. -/
def encodeSextet (n : ℕ) : Char := b64chars.getD n 'A'

/-- Character-to-value table lookup performed by atob. -/
def decodeSextet (c : Char) : ℕ := b64chars.findIdx (fun d => d = c)

/-- encodeAudioData of the source: builds a binary string from the bytes and
base64-encodes it with btoa (three bytes become four characters, a short tail
is padded with the pad character). -/
def encodeAudioData : List ℕ → List Char
  | [] => []
  | [b1] => [encodeSextet (b1 / 4), encodeSextet (b1 % 4 * 16), '=', '=']
  | [b1, b2] =>
      [encodeSextet (b1 / 4), encodeSextet (b1 % 4 * 16 + b2 / 16),
        encodeSextet (b2 % 16 * 4), '=']
  | b1 :: b2 :: b3 :: rest =>
      encodeSextet (b1 / 4) :: encodeSextet (b1 % 4 * 16 + b2 / 16) ::
        encodeSextet (b2 % 16 * 4 + b3 / 64) :: encodeSextet (b3 % 64) ::
        encodeAudioData rest

/-- Regroup a stream of base64 sextet values into bytes (the bit-regrouping
step of atob; a leftover partial byte is discarded, as atob does). -/
def sextetsToBytes : List ℕ → List ℕ
  | s1 :: s2 :: s3 :: s4 :: rest =>
      (s1 * 4 + s2 / 16) :: (s2 % 16 * 16 + s3 / 4) :: (s3 % 4 * 64 + s4) ::
        sextetsToBytes rest
  | [s1, s2, s3] => [s1 * 4 + s2 / 16, s2 % 16 * 16 + s3 / 4]
  | [s1, s2] => [s1 * 4 + s2 / 16]
  | _ => []

/-- decodeAudioData of the source: atob the base64 string and read the char
codes back into a byte array.  Padding characters carry no payload bits. -/
def decodeAudioData (chars : List Char) : List ℕ :=
  sextetsToBytes ((chars.filter (fun c => c ≠ '=')).map decodeSextet)

/-- Reinterpret two bytes as one little-endian signed 16-bit integer, as the
Int16Array view over the byte buffer does. -/
def int16OfBytes (lo hi : ℕ) : ℤ :=
  if lo + 256 * hi < 32768 then (lo + 256 * hi : ℤ) else (lo + 256 * hi : ℤ) - 65536

/-- The whole Int16Array view: consecutive byte pairs, little endian. -/
def bytesToInt16 : List ℕ → List ℤ
  | lo :: hi :: rest => int16OfBytes lo hi :: bytesToInt16 rest
  | _ => []

/-- A decoded audio buffer: per-channel normalized samples plus its declared
rate, as produced by convertPCMToAudioBuffer. -/
structure AudioFrame where
  numberOfChannels : ℕ
  frameCount : ℕ
  sampleRate : ℕ
  channelData : List (List ℚ)
  deriving DecidableEq

/-- The duration property of an audio buffer: frames divided by sample rate. -/
def audioFrameDuration (f : AudioFrame) : ℚ := (f.frameCount : ℚ) / (f.sampleRate : ℚ)

/-- convertPCMToAudioBuffer of the source.  Constructing the Int16Array view
throws when the byte length is odd, modelled by the none result; otherwise the
samples are de-interleaved per channel and scaled by 1/32768. -/
def convertPCMToAudioBuffer (data : List ℕ) (sampleRate numChannels : ℕ) :
    Option AudioFrame :=
  if data.length % 2 ≠ 0 then none
  else
    let dataInt16 := bytesToInt16 data
    let frameCount := dataInt16.length / numChannels
    some
      { numberOfChannels := numChannels
        frameCount := frameCount
        sampleRate := sampleRate
        channelData :=
          (List.range numChannels).map fun ch =>
            (List.range frameCount).map fun i =>
              ((dataInt16.getD (i * numChannels + ch) 0 : ℤ) : ℚ) / 32768 }

/-- Truncation toward zero, the ToNumber-to-integer step of an Int16Array
element assignment. -/
def jsTrunc (q : ℚ) : ℤ := if 0 ≤ q then ⌊q⌋ else -⌊-q⌋

/-- Wrap an integer into the signed 16-bit range, the final step of an
Int16Array element assignment. -/
def toInt16 (n : ℤ) : ℤ := (n + 32768) % 65536 - 32768

/-- The per-sample conversion performed by the createBlob loop: scale a
normalized sample by 32768 and store it into an Int16Array slot. -/
def floatToPcm16 (x : ℚ) : ℤ := toInt16 (jsTrunc (x * 32768))

/-- The per-sample reverse conversion performed by convertPCMToAudioBuffer:
divide the 16-bit integer sample by 32768. -/
def pcm16ToFloat (n : ℤ) : ℚ := (n : ℚ) / 32768

/-- The sample-array part of createBlob: elementwise float-to-int16. -/
def createBlobSamples (data : List ℚ) : List ℤ := data.map floatToPcm16

/-- Duration of a mono 24 kHz PCM byte payload: byte pairs over the rate. -/
def pcmDuration (bytes : List ℕ) : ℚ := ((bytes.length / 2 : ℕ) : ℚ) / 24000

/-- The audio-payload branch of the onmessage handler, given the already
base64-decoded bytes: stitch the decoded buffer onto the playback tail.  The
next start time is first pulled up to the device clock; on a successful decode
the source is scheduled there, the cursor advances by the duration and the
source joins the active set; a failed decode leaves only the cursor pull-up
(the handler aborts at the throw). -/
def handleAudioBytes (clock : ℚ) (bytes : List ℕ) (s : LiveState) : LiveState :=
  let ns := max s.nextStartTime clock
  match convertPCMToAudioBuffer bytes 24000 1 with
  | some frame =>
      { s with
          nextStartTime := ns + audioFrameDuration frame
          sources := s.sources ++ [{ start := ns, duration := audioFrameDuration frame }] }
  | none => { s with nextStartTime := ns }

/-- Deliver a sequence of audio payloads in order, each tagged with the device
clock observed when it is handled. -/
def runAudio (payloads : List (ℚ × List ℕ)) (s : LiveState) : LiveState :=
  payloads.foldl (fun st p => handleAudioBytes p.1 p.2 st) s

/-- The trim operation on strings: drop leading and trailing whitespace, as
the trim method of JavaScript strings does.  (Defined structurally over the
character list so that it evaluates by reduction.) -/
def jsTrim (s : String) : String :=
  String.mk (((s.data.dropWhile Char.isWhitespace).reverse.dropWhile Char.isWhitespace).reverse)

/-- The transcript entry committed for the user side on turn completion. -/
def userCommitEntry (now : ℕ) (s : LiveState) : ChatMessage :=
  { id := toString now ++ "-user", role := Role.user,
    text := jsTrim s.inputBuffer, timestamp := now }

/-- The transcript entry committed for the model side on turn completion. -/
def modelCommitEntry (now : ℕ) (s : LiveState) : ChatMessage :=
  { id := toString now ++ "-model", role := Role.model,
    text := jsTrim s.outputBuffer, timestamp := now }

/-- The turnComplete branch of the onmessage handler: commit each side whose
trimmed buffer is non-empty (truthiness of the trimmed string), user side
first, then clear the realtime view. -/
def commitTurn (now : ℕ) (s : LiveState) : LiveState :=
  let s1 :=
    if jsTrim s.inputBuffer = "" then s
    else { s with transcript := s.transcript ++ [userCommitEntry now s], inputBuffer := "" }
  let s2 :=
    if jsTrim s1.outputBuffer = "" then s1
    else { s1 with transcript := s1.transcript ++ [modelCommitEntry now s1], outputBuffer := "" }
  { s2 with realtimeText := none }

/-- The interrupted branch of the onmessage handler: stop every active source
and clear the set, reset the playback cursor to zero, drop the agent-side
buffer, and clear the realtime view. -/
def interruptPlayback (s : LiveState) : LiveState :=
  { s with sources := [], nextStartTime := 0, outputBuffer := "", realtimeText := none }

/-- An inbound server message, decoded at the boundary: optional transcription
deltas, the turn-complete and interrupted flags, and an optional base64 audio
payload. -/
structure ServerMessage where
  inputTranscription : Option String
  outputTranscription : Option String
  turnComplete : Bool
  audioData : Option (List Char)
  interrupted : Bool

/-- The inputTranscription branch: append the delta to the user buffer and
publish the accumulated text as the realtime view (skipped for an absent or
empty delta, by truthiness). -/
def inputStep (t? : Option String) (s : LiveState) : LiveState :=
  match t? with
  | some t =>
      if t = "" then s
      else
        { s with inputBuffer := s.inputBuffer ++ t,
                 realtimeText := some { role := Role.user, text := s.inputBuffer ++ t } }
  | none => s

/-- The outputTranscription branch, symmetric to the input branch. -/
def outputStep (t? : Option String) (s : LiveState) : LiveState :=
  match t? with
  | some t =>
      if t = "" then s
      else
        { s with outputBuffer := s.outputBuffer ++ t,
                 realtimeText := some { role := Role.model, text := s.outputBuffer ++ t } }
  | none => s

/-- The onmessage callback: transcription branches, turn-complete branch,
audio branch, interrupted branch, in source order.  A decode failure in the
audio branch rejects the async handler, so the interrupted branch of the same
message is not reached. -/
def onmessage (clock : ℚ) (now : ℕ) (msg : ServerMessage) (s : LiveState) : LiveState :=
  let s1 := inputStep msg.inputTranscription s
  let s2 := outputStep msg.outputTranscription s1
  let s3 := if msg.turnComplete then commitTurn now s2 else s2
  match msg.audioData with
  | some b64 =>
      if b64 = [] then if msg.interrupted then interruptPlayback s3 else s3
      else
        let s4 := handleAudioBytes clock (decodeAudioData b64) s3
        if (decodeAudioData b64).length % 2 = 0 then
          if msg.interrupted then interruptPlayback s4 else s4
        else s4
  | none => if msg.interrupted then interruptPlayback s3 else s3

/-- A message carrying only the interrupted flag. -/
def interruptedMsg : ServerMessage :=
  { inputTranscription := none, outputTranscription := none,
    turnComplete := false, audioData := none, interrupted := true }

/-- A message carrying only the turn-complete flag. -/
def turnCompleteMsg : ServerMessage :=
  { inputTranscription := none, outputTranscription := none,
    turnComplete := true, audioData := none, interrupted := false }

/-- A message carrying only an audio payload. -/
def audioMsg (b64 : List Char) : ServerMessage :=
  { inputTranscription := none, outputTranscription := none,
    turnComplete := false, audioData := some b64, interrupted := false }

/-- A message carrying only an input-transcription delta. -/
def inputDeltaMsg (t : String) : ServerMessage :=
  { inputTranscription := some t, outputTranscription := none,
    turnComplete := false, audioData := none, interrupted := false }

/-- The error message set by the onerror callback. -/
def connErrMsg : String := "Connection error. Check console for details."

/-- The error message set when microphone permission is denied. -/
def micErrMsg : String :=
  "Microphone access was denied. Please allow microphone permissions in your browser settings and reload the page."

/-- The onopen callback: mark connected and start the capture pipeline. -/
def onopen (s : LiveState) : LiveState :=
  { s with status := Status.connected, isConnected := true, captureActive := true }

/-- The onclose callback of the source: it only updates the status flags. -/
def onclose (s : LiveState) : LiveState :=
  { s with status := Status.disconnected, isConnected := false }

/-- The onerror callback of the source: it records a message and updates the
status flags. -/
def onerror (s : LiveState) : LiveState :=
  { s with errorMessage := connErrMsg, status := Status.error, isConnected := false }

/-- The synchronous reset block at the top of connect: clear the error
message, enter the connecting state, clear the permission flag, clear the
transcript and both transcription buffers. -/
def connectReset (s : LiveState) : LiveState :=
  { s with errorMessage := "", status := Status.connecting, permissionDenied := false,
           transcript := [], inputBuffer := "", outputBuffer := "" }

/-- The connect attempt up to the remote call: the reset block, then
microphone acquisition.  The boolean argument tells whether getUserMedia
succeeds; the boolean result tells whether the remote session open was
issued.  On permission failure the catch block records the distinguished
permission-denied outcome and no remote call is made. -/
def connectAttempt (micOk : Bool) (s : LiveState) : LiveState × Bool :=
  let s1 := connectReset s
  if micOk then ({ s1 with micActive := true }, true)
  else
    ({ s1 with status := Status.error, errorMessage := micErrMsg,
               permissionDenied := true, isConnected := false }, false)

/-- Two scheduled sources in this order do not overlap: the first ends no
later than the second starts. -/
def nonOverlap (a b : Source) : Prop := a.start + a.duration ≤ b.start

/-- The playback-scheduler invariant: consecutive active sources do not
overlap, and the cursor is at or past the end of the last scheduled source. -/
def playbackInv (s : LiveState) : Prop :=
  s.sources.Chain' nonOverlap ∧
    ∀ a, s.sources.getLast? = some a → a.start + a.duration ≤ s.nextStartTime

/-- The per-payload stitch contract: the handler appends exactly one source
starting at the clock-corrected cursor, the start is at or after the device
clock and at or after the previous cursor, the cursor advances by the
duration, and the next payload starts exactly at this end whenever it is
handled before the device clock passes that end. -/
def stitchStep (clock : ℚ) (bytes : List ℕ) (s : LiveState) : Prop :=
  (handleAudioBytes clock bytes s).sources
      = s.sources ++ [{ start := max s.nextStartTime clock, duration := pcmDuration bytes }]
  ∧ clock ≤ max s.nextStartTime clock
  ∧ s.nextStartTime ≤ max s.nextStartTime clock
  ∧ (handleAudioBytes clock bytes s).nextStartTime
      = max s.nextStartTime clock + pcmDuration bytes
  ∧ ∀ clock2 : ℚ, clock2 ≤ max s.nextStartTime clock + pcmDuration bytes →
      max (handleAudioBytes clock bytes s).nextStartTime clock2
        = max s.nextStartTime clock + pcmDuration bytes

/-- The freshly mounted component state. -/
def initState : LiveState :=
  { status := Status.disconnected, isConnected := false, errorMessage := "",
    permissionDenied := false, transcript := [], realtimeText := none,
    nextStartTime := 0, sources := [], inputBuffer := "", outputBuffer := "",
    captureActive := false, micActive := false }

/-- A connected state with one active playback source, used as a concrete
session snapshot. -/
def closeCtrState : LiveState :=
  { initState with status := Status.connected, isConnected := true,
                   captureActive := true, micActive := true,
                   sources := [{ start := 0, duration := 1 }] }

/-- A sample committed transcript entry. -/
def sampleEntry : ChatMessage :=
  { id := "1-user", role := Role.user, text := "hello", timestamp := 1 }

/-- A connected state with a non-empty transcript. -/
def connectCtrState : LiveState :=
  { initState with status := Status.connected, isConnected := true,
                   transcript := [sampleEntry] }

/-- A state whose playback cursor sits at five seconds. -/
def timelineCtrState : LiveState := { initState with nextStartTime := 5 }

/-- A sample stale realtime view. -/
def staleView : RealtimeText := { role := Role.model, text := "hi" }

/-- A state still showing a stale realtime partial view. -/
def staleState : LiveState := { initState with realtimeText := some staleView }

/-- A base64 payload that decodes to a single byte. -/
def oddB64 : List Char := ("AA==").toList

end LiveVoice

namespace LiveVoice

theorem bytesToInt16_length : ∀ bs : List ℕ, (bytesToInt16 bs).length = bs.length / 2
  | [] => by simp [bytesToInt16]
  | [_] => by simp [bytesToInt16]
  | _ :: _ :: rest => by
      have ih := bytesToInt16_length rest
      simp only [bytesToInt16, List.length_cons, ih]
      omega

theorem handleAudioBytes_even (clock : ℚ) (bytes : List ℕ) (s : LiveState)
    (h : bytes.length % 2 = 0) :
    handleAudioBytes clock bytes s
      = { s with
            nextStartTime := max s.nextStartTime clock + pcmDuration bytes,
            sources := s.sources ++
              [{ start := max s.nextStartTime clock, duration := pcmDuration bytes }] } := by
  unfold handleAudioBytes convertPCMToAudioBuffer
  simp [h, audioFrameDuration, pcmDuration, bytesToInt16_length]

theorem handleAudioBytes_odd (clock : ℚ) (bytes : List ℕ) (s : LiveState)
    (h : bytes.length % 2 ≠ 0) :
    handleAudioBytes clock bytes s = { s with nextStartTime := max s.nextStartTime clock } := by
  unfold handleAudioBytes convertPCMToAudioBuffer
  simp [h]

theorem playbackInv_handleAudio (clock : ℚ) (bytes : List ℕ) (s : LiveState)
    (h : playbackInv s) : playbackInv (handleAudioBytes clock bytes s) := by
  obtain ⟨hchain, hlast⟩ := h
  by_cases h2 : bytes.length % 2 = 0
  · rw [handleAudioBytes_even clock bytes s h2]
    constructor
    · refine List.chain'_append.mpr ⟨hchain, List.chain'_singleton _, ?_⟩
      intro a ha b hb
      simp only [List.head?_cons, Option.mem_def, Option.some.injEq] at hb
      subst hb
      exact le_trans (hlast a ha) (le_max_left _ _)
    · intro a ha
      simp only [List.getLast?_concat, Option.some.injEq] at ha
      subst ha
      exact le_refl _
  · rw [handleAudioBytes_odd clock bytes s h2]
    exact ⟨hchain, fun a ha => le_trans (hlast a ha) (le_max_left _ _)⟩

theorem playbackInv_runAudio (ps : List (ℚ × List ℕ)) (s : LiveState)
    (h : playbackInv s) : playbackInv (runAudio ps s) := by
  induction ps generalizing s with
  | nil => exact h
  | cons p ps ih =>
      simp only [runAudio, List.foldl_cons]
      exact ih _ (playbackInv_handleAudio p.1 p.2 s h)

end LiveVoice

namespace LiveVoice

theorem sextet_rt_aux :
    ∀ i : Fin 64, decodeSextet (encodeSextet i.val) = i.val ∧ encodeSextet i.val ≠ '=' := by
  decide

theorem sextet_rt (n : ℕ) (h : n < 64) : decodeSextet (encodeSextet n) = n :=
  (sextet_rt_aux ⟨n, h⟩).1

theorem encodeSextet_ne_pad (n : ℕ) (h : n < 64) : encodeSextet n ≠ '=' :=
  (sextet_rt_aux ⟨n, h⟩).2

theorem decode_encode : ∀ bs : List ℕ, (∀ b ∈ bs, b < 256) →
    decodeAudioData (encodeAudioData bs) = bs
  | [], _ => rfl
  | [b1], hb => by
      have h1 : b1 < 256 := hb b1 (by simp)
      have n1 := encodeSextet_ne_pad (b1 / 4) (by omega)
      have n2 := encodeSextet_ne_pad (b1 % 4 * 16) (by omega)
      have e1 := sextet_rt (b1 / 4) (by omega)
      have e2 := sextet_rt (b1 % 4 * 16) (by omega)
      simp [encodeAudioData, decodeAudioData, List.filter_cons, n1, n2, e1, e2, sextetsToBytes]
      omega
  | [b1, b2], hb => by
      have h1 : b1 < 256 := hb b1 (by simp)
      have h2 : b2 < 256 := hb b2 (by simp)
      have n1 := encodeSextet_ne_pad (b1 / 4) (by omega)
      have n2 := encodeSextet_ne_pad (b1 % 4 * 16 + b2 / 16) (by omega)
      have n3 := encodeSextet_ne_pad (b2 % 16 * 4) (by omega)
      have e1 := sextet_rt (b1 / 4) (by omega)
      have e2 := sextet_rt (b1 % 4 * 16 + b2 / 16) (by omega)
      have e3 := sextet_rt (b2 % 16 * 4) (by omega)
      simp [encodeAudioData, decodeAudioData, List.filter_cons, n1, n2, n3, e1, e2, e3,
        sextetsToBytes]
      constructor
      · omega
      · omega
  | b1 :: b2 :: b3 :: rest, hb => by
      have h1 : b1 < 256 := hb b1 (by simp)
      have h2 : b2 < 256 := hb b2 (by simp)
      have h3 : b3 < 256 := hb b3 (by simp)
      have ih := decode_encode rest (fun b h => hb b (by simp [h]))
      have n1 := encodeSextet_ne_pad (b1 / 4) (by omega)
      have n2 := encodeSextet_ne_pad (b1 % 4 * 16 + b2 / 16) (by omega)
      have n3 := encodeSextet_ne_pad (b2 % 16 * 4 + b3 / 64) (by omega)
      have n4 := encodeSextet_ne_pad (b3 % 64) (by omega)
      have e1 := sextet_rt (b1 / 4) (by omega)
      have e2 := sextet_rt (b1 % 4 * 16 + b2 / 16) (by omega)
      have e3 := sextet_rt (b2 % 16 * 4 + b3 / 64) (by omega)
      have e4 := sextet_rt (b3 % 64) (by omega)
      simp only [decodeAudioData] at ih ⊢
      simp only [encodeAudioData, List.filter_cons, List.map_cons, decide_not]
      simp [n1, n2, n3, n4, e1, e2, e3, e4, sextetsToBytes]
      simp only [decodeAudioData, decide_not] at ih
      refine ⟨by omega, by omega, by omega, ih⟩

end LiveVoice

namespace LiveVoice

/-- C9: transport-encoding round trip — for every byte buffer of even length
(with byte values below 256, as a byte array guarantees), decoding the
transport encoding of the buffer yields the buffer back exactly, byte for
byte. -/
theorem codec_roundtrip (bytes : List ℕ) (hb : ∀ b ∈ bytes, b < 256)
    (_he : 2 ∣ bytes.length) :
    decodeAudioData (encodeAudioData bytes) = bytes :=
  decode_encode bytes hb

theorem codec_roundtrip_witness :
    (∀ b ∈ ([7, 200] : List ℕ), b < 256) ∧ 2 ∣ ([7, 200] : List ℕ).length ∧
      decodeAudioData (encodeAudioData [7, 200]) = [7, 200] :=
  ⟨by decide, by decide, codec_roundtrip [7, 200] (by decide) (by decide)⟩

/-- C1 counterexample: two well-formed one-sample frames delivered in order,
the second arriving after the device clock has passed the end of the first
(clock 1 at the second delivery).  The scheduled starts are 0 and 1, so the
claimed equality of the second start with the first start plus the first
duration (1/24000) fails: the handler takes the maximum with the device
clock. -/
theorem playback_equal_spacing_counterexample :
    (handleAudioBytes 1 [0, 0] (handleAudioBytes 0 [0, 0] initState)).sources
        = [{ start := 0, duration := 1/24000 }, { start := 1, duration := 1/24000 }]
      ∧ ¬ ((1 : ℚ) = 0 + 1/24000) := by
  have hpd : pcmDuration [0, 0] = 1 / 24000 := by
    simp [pcmDuration]
  have e1 := handleAudioBytes_even 0 [0, 0] initState (by decide)
  have e2 := handleAudioBytes_even 1 [0, 0] (handleAudioBytes 0 [0, 0] initState) (by decide)
  rw [e1] at e2
  rw [e1, e2]
  constructor
  · simp only [initState, hpd]
    norm_num
  · norm_num

/-- C1 amended: for every audio payload handled while connected without an
intervening interruption, the handler appends exactly one source starting at
max of the previous cursor and the device clock, the start is at or after the
device clock, the cursor advances by the frame duration, and the next frame
starts exactly at this frame's end whenever it is handled before the device
clock passes that end; consequently consecutive scheduled frames never
overlap, for any sequence of delivered payloads. -/
theorem playback_stitch_amended (s : LiveState) (clock : ℚ) (bytes : List ℕ)
    (h : 2 ∣ bytes.length) :
    stitchStep clock bytes s ∧
      ∀ ps : List (ℚ × List ℕ), playbackInv s → playbackInv (runAudio ps s) := by
  have h2 : bytes.length % 2 = 0 := by omega
  refine ⟨?_, fun ps hinv => playbackInv_runAudio ps s hinv⟩
  unfold stitchStep
  rw [handleAudioBytes_even clock bytes s h2]
  refine ⟨rfl, le_max_right _ _, le_max_left _ _, rfl, ?_⟩
  intro clock2 hc2
  exact max_eq_left hc2

theorem playback_stitch_amended_witness :
    2 ∣ ([0, 0] : List ℕ).length ∧
      (stitchStep 0 [0, 0] initState ∧
        ∀ ps : List (ℚ × List ℕ), playbackInv initState → playbackInv (runAudio ps initState)) :=
  ⟨by decide, playback_stitch_amended initState 0 [0, 0] (by decide)⟩

/-- C2: the interrupted branch empties the active source set, resets the
playback cursor to 0, clears the agent-side buffer without emitting any
transcript entry, leaves the user-side buffer and the status untouched, and
is idempotent (hence safe on an already-empty set). -/
theorem interrupted_postcondition (clock : ℚ) (now : ℕ) (s : LiveState) :
    onmessage clock now interruptedMsg s = interruptPlayback s
    ∧ (interruptPlayback s).sources = []
    ∧ (interruptPlayback s).nextStartTime = 0
    ∧ (interruptPlayback s).outputBuffer = ""
    ∧ (interruptPlayback s).transcript = s.transcript
    ∧ (interruptPlayback s).inputBuffer = s.inputBuffer
    ∧ (interruptPlayback s).status = s.status
    ∧ (interruptPlayback s).realtimeText = none
    ∧ interruptPlayback (interruptPlayback s) = interruptPlayback s :=
  ⟨rfl, rfl, rfl, rfl, rfl, rfl, rfl, rfl, rfl⟩

/-- C3: the turn-complete handler appends exactly one entry per side whose
trimmed buffer is non-empty (none otherwise), with the trimmed text, user
side before agent side; a committing side's buffer is cleared; the realtime
view is cleared; and a second commit with no intervening append adds no
entries. -/
theorem commitTurn_spec (now now2 : ℕ) (s : LiveState) :
    (commitTurn now s).transcript
        = s.transcript
          ++ (if jsTrim s.inputBuffer = "" then [] else [userCommitEntry now s])
          ++ (if jsTrim s.outputBuffer = "" then [] else [modelCommitEntry now s])
    ∧ (commitTurn now s).inputBuffer = (if jsTrim s.inputBuffer = "" then s.inputBuffer else "")
    ∧ (commitTurn now s).outputBuffer = (if jsTrim s.outputBuffer = "" then s.outputBuffer else "")
    ∧ (commitTurn now s).realtimeText = none
    ∧ (commitTurn now2 (commitTurn now s)).transcript = (commitTurn now s).transcript := by
  have hemp : jsTrim "" = "" := rfl
  by_cases h1 : jsTrim s.inputBuffer = "" <;> by_cases h2 : jsTrim s.outputBuffer = "" <;>
    simp [commitTurn, userCommitEntry, modelCommitEntry, h1, h2, hemp]

end LiveVoice

namespace LiveVoice

theorem convert_none_iff (bs : List ℕ) :
    convertPCMToAudioBuffer bs 24000 1 = none ↔ ¬ 2 ∣ bs.length := by
  unfold convertPCMToAudioBuffer
  by_cases hb : bs.length % 2 = 0
  · simp [hb]
  · simp [hb]
    omega

/-- C4: decoding an inbound audio payload fails exactly when its byte length
is not a multiple of two (the handler decodes with channel count one); such a
failure only pulls the playback cursor up to the device clock — status,
sources, transcript and buffers are untouched, the session is not terminated,
and a subsequent well-formed payload is still scheduled normally. -/
theorem malformed_audio_contained (b64 : List Char) (clock clock2 : ℚ) (now : ℕ)
    (s : LiveState) (bytes2 : List ℕ)
    (hne : b64 ≠ [])
    (hodd : ¬ 2 ∣ (decodeAudioData b64).length)
    (heven : 2 ∣ bytes2.length) :
    (∀ bs : List ℕ, convertPCMToAudioBuffer bs 24000 1 = none ↔ ¬ 2 ∣ bs.length)
    ∧ onmessage clock now (audioMsg b64) s = { s with nextStartTime := max s.nextStartTime clock }
    ∧ (handleAudioBytes clock2 bytes2 (onmessage clock now (audioMsg b64) s)).sources
        = s.sources ++ [{ start := max (max s.nextStartTime clock) clock2,
                          duration := pcmDuration bytes2 }] := by
  have hmod : (decodeAudioData b64).length % 2 ≠ 0 := by omega
  have hmsg : onmessage clock now (audioMsg b64) s
      = { s with nextStartTime := max s.nextStartTime clock } := by
    unfold onmessage audioMsg
    simp [inputStep, outputStep, hne, hmod, handleAudioBytes_odd _ _ _ hmod]
  refine ⟨convert_none_iff, hmsg, ?_⟩
  rw [hmsg, handleAudioBytes_even clock2 bytes2 _ (by omega)]

theorem malformed_audio_contained_witness :
    oddB64 ≠ [] ∧ (¬ 2 ∣ (decodeAudioData oddB64).length) ∧ 2 ∣ ([0, 0] : List ℕ).length ∧
      ((∀ bs : List ℕ, convertPCMToAudioBuffer bs 24000 1 = none ↔ ¬ 2 ∣ bs.length)
       ∧ onmessage 0 0 (audioMsg oddB64) initState
           = { initState with nextStartTime := max initState.nextStartTime 0 }
       ∧ (handleAudioBytes 0 [0, 0] (onmessage 0 0 (audioMsg oddB64) initState)).sources
           = initState.sources ++ [{ start := max (max initState.nextStartTime 0) 0,
                                     duration := pcmDuration [0, 0] }]) :=
  ⟨by decide, by decide, by decide,
    malformed_audio_contained oddB64 0 0 0 initState [0, 0] (by decide) (by decide) (by decide)⟩

/-- C5 counterexample: in a connected session with one active source, a
remote close (and likewise a remote error) changes only the status flags: the
active source set is not cleared and neither the capture pipeline nor the
microphone is released — there is no teardown, contrary to the claim. -/
theorem close_no_teardown_counterexample :
    (onclose closeCtrState).status = Status.disconnected
    ∧ (onclose closeCtrState).sources = [{ start := 0, duration := 1 }]
    ∧ ¬ (onclose closeCtrState).sources = []
    ∧ (onclose closeCtrState).captureActive = true
    ∧ (onclose closeCtrState).micActive = true
    ∧ (onerror closeCtrState).status = Status.error
    ∧ ¬ (onerror closeCtrState).sources = []
    ∧ (onerror closeCtrState).captureActive = true := by
  refine ⟨rfl, rfl, ?_, rfl, rfl, rfl, ?_, rfl⟩ <;> exact List.cons_ne_nil _ _

/-- C5 amended: a remote close sets the status to disconnected and clears the
connected flag, and a remote error records the error message, sets the status
to error and clears the connected flag — and that is all: every other
component of the state (active sources, playback cursor, capture pipeline,
microphone, transcript, buffers) is left unchanged; no teardown is run. -/
theorem close_error_transition_amended (s : LiveState) :
    onclose s = { s with status := Status.disconnected, isConnected := false }
    ∧ onerror s
        = { s with errorMessage := connErrMsg, status := Status.error, isConnected := false } :=
  ⟨rfl, rfl⟩

/-- C6 counterexample: calling connect while the session is already connected
is not a no-op: the reset block runs unconditionally, clearing the committed
transcript, and the microphone/remote flow proceeds. -/
theorem connect_unguarded_counterexample :
    connectCtrState.status = Status.connected
    ∧ (connectAttempt true connectCtrState).1.transcript = []
    ∧ ¬ (connectAttempt true connectCtrState).1 = connectCtrState
    ∧ (connectAttempt true connectCtrState).2 = true := by
  refine ⟨rfl, rfl, ?_, rfl⟩
  intro h
  have hc := congrArg LiveState.transcript h
  simp [connectAttempt, connectReset, connectCtrState, initState, sampleEntry] at hc

/-- C6 amended: connect carries no internal guard — its behaviour is
completely independent of the current session status (the only guard lives at
the UI call site, which disables the control while connecting and routes to
disconnect while connected); invoked in any state it proceeds: it resets,
enters the connecting state, and issues the remote call whenever the
microphone is granted. -/
theorem connect_unguarded_amended (s : LiveState) (micOk : Bool) (st1 st2 : Status) :
    connectAttempt micOk { s with status := st1 } = connectAttempt micOk { s with status := st2 }
    ∧ (connectAttempt micOk s).2 = micOk
    ∧ (connectAttempt true s).1.status = Status.connecting
    ∧ (connectAttempt true s).1.transcript = [] := by
  cases micOk <;> exact ⟨rfl, rfl, rfl, rfl⟩

/-- C7 counterexample: connect does not reset the playback timeline — from a
state whose cursor sits at five seconds, the cursor still sits at five after
the reset block, on both the successful and the failing permission path. -/
theorem connect_timeline_counterexample :
    timelineCtrState.nextStartTime = 5
    ∧ (connectAttempt true timelineCtrState).1.nextStartTime = 5
    ∧ (connectAttempt false timelineCtrState).1.nextStartTime = 5
    ∧ ¬ ((5 : ℚ) = 0) := by
  refine ⟨rfl, rfl, rfl, by norm_num⟩

/-- C7 amended: before opening the remote session connect clears the
committed transcript and both transcription buffers, and on microphone denial
it halts with status error and the distinguished permission-denied flag
before any remote call; it does not, however, reset the playback scheduler
timeline — the next scheduled start keeps its previous value. -/
theorem connect_reset_amended (s : LiveState) :
    (connectAttempt true s).1.transcript = []
    ∧ (connectAttempt false s).1.transcript = []
    ∧ (connectAttempt true s).1.inputBuffer = ""
    ∧ (connectAttempt true s).1.outputBuffer = ""
    ∧ (connectAttempt false s).1.inputBuffer = ""
    ∧ (connectAttempt false s).1.outputBuffer = ""
    ∧ (connectAttempt true s).1.nextStartTime = s.nextStartTime
    ∧ (connectAttempt false s).1.nextStartTime = s.nextStartTime
    ∧ (connectAttempt false s).1.status = Status.error
    ∧ (connectAttempt false s).1.permissionDenied = true
    ∧ (connectAttempt false s).1.errorMessage = micErrMsg
    ∧ (connectAttempt false s).2 = false
    ∧ (connectAttempt true s).2 = true :=
  ⟨rfl, rfl, rfl, rfl, rfl, rfl, rfl, rfl, rfl, rfl, rfl, rfl, rfl⟩

/-- C10: neither the connect reset block nor the remote close or error
handlers touch the realtime partial view, so a stale view survives a remote
close, a remote error and a subsequent connect, and is only replaced or
cleared by the first transcription, turn-complete or interrupted event. -/
theorem stale_partial_view (s : LiveState) (v : RealtimeText) (clock : ℚ) (now : ℕ)
    (micOk : Bool) (t : String) (hv : s.realtimeText = some v) (ht : ¬ t = "") :
    (onclose s).realtimeText = some v
    ∧ (onerror s).realtimeText = some v
    ∧ (connectAttempt micOk s).1.realtimeText = some v
    ∧ (onmessage clock now turnCompleteMsg s).realtimeText = none
    ∧ (onmessage clock now interruptedMsg s).realtimeText = none
    ∧ (onmessage clock now (inputDeltaMsg t) s).realtimeText
        = some { role := Role.user, text := s.inputBuffer ++ t } := by
  refine ⟨hv, hv, ?_, rfl, rfl, ?_⟩
  · cases micOk <;> exact hv
  · simp [onmessage, inputDeltaMsg, inputStep, outputStep, ht]

theorem stale_partial_view_witness :
    staleState.realtimeText = some staleView ∧ ¬ (("x" : String) = "") ∧
      ((onclose staleState).realtimeText = some staleView
       ∧ (onerror staleState).realtimeText = some staleView
       ∧ (connectAttempt true staleState).1.realtimeText = some staleView
       ∧ (onmessage 0 0 turnCompleteMsg staleState).realtimeText = none
       ∧ (onmessage 0 0 interruptedMsg staleState).realtimeText = none
       ∧ (onmessage 0 0 (inputDeltaMsg "x") staleState).realtimeText
           = some { role := Role.user, text := staleState.inputBuffer ++ "x" }) :=
  ⟨rfl, by decide, stale_partial_view staleState staleView 0 0 true "x" rfl (by decide)⟩

theorem jsTrunc_close (q : ℚ) : |((jsTrunc q : ℤ) : ℚ) - q| < 1 := by
  unfold jsTrunc
  split_ifs with h
  · rw [abs_lt]
    have h1 := Int.floor_le q
    have h2 := Int.lt_floor_add_one q
    constructor <;> linarith
  · rw [abs_lt]
    have h1 := Int.floor_le (-q)
    have h2 := Int.lt_floor_add_one (-q)
    push_cast
    constructor <;> linarith

theorem jsTrunc_range (q : ℚ) (h1 : -32768 ≤ q) (h2 : q < 32768) :
    -32768 ≤ jsTrunc q ∧ jsTrunc q ≤ 32767 := by
  unfold jsTrunc
  split_ifs with h
  · constructor
    · have hnn : (0:ℤ) ≤ ⌊q⌋ := Int.floor_nonneg.mpr h
      omega
    · have hlt : ⌊q⌋ < 32768 := by
        rw [Int.floor_lt]
        exact_mod_cast h2
      omega
  · push_neg at h
    constructor
    · have hle : -q ≤ ((32768:ℤ) : ℚ) := by push_cast; linarith
      have := Int.floor_le_floor hle
      rw [Int.floor_intCast] at this
      omega
    · have hnn : (0:ℤ) ≤ ⌊-q⌋ := Int.floor_nonneg.mpr (by linarith)
      omega

theorem toInt16_id (n : ℤ) (h1 : -32768 ≤ n) (h2 : n ≤ 32767) : toInt16 n = n := by
  unfold toInt16
  omega

/-- C8 counterexample: at the admissible input 1 the scaled value 32768
overflows the signed 16-bit range and wraps to -32768, so the reconstruction
is -1 and the round-trip error is 2, far beyond 1/32768. -/
theorem roundtrip_at_one_counterexample :
    floatToPcm16 1 = -32768
    ∧ pcm16ToFloat (floatToPcm16 1) = -1
    ∧ ¬ (|pcm16ToFloat (floatToPcm16 1) - 1| ≤ 1 / 32768) := by
  have h0 : ((1:ℚ) * 32768) = ((32768 : ℤ) : ℚ) := by norm_num
  have h1 : jsTrunc ((1:ℚ) * 32768) = 32768 := by
    unfold jsTrunc
    rw [if_pos (by norm_num), h0, Int.floor_intCast]
  have h2 : floatToPcm16 1 = -32768 := by
    unfold floatToPcm16
    rw [h1]
    unfold toInt16
    decide
  refine ⟨h2, ?_, ?_⟩
  · rw [h2]
    unfold pcm16ToFloat
    norm_num
  · rw [h2]
    unfold pcm16ToFloat
    norm_num

/-- C8 amended: on the half-open interval from -1 inclusive to 1 exclusive
the conversion scales by 32768 and truncates, the 16-bit wrap is the
identity, and the round trip reconstructs the sample within 1/32768 absolute
error; at the right endpoint 1 the scaled value wraps and the property
fails. -/
theorem float_pcm16_roundtrip_amended (x : ℚ) (hx1 : -1 ≤ x) (hx2 : x < 1) :
    |pcm16ToFloat (floatToPcm16 x) - x| ≤ 1 / 32768 := by
  have hy1 : -32768 ≤ x * 32768 := by linarith
  have hy2 : x * 32768 < 32768 := by linarith
  obtain ⟨hr1, hr2⟩ := jsTrunc_range (x * 32768) hy1 hy2
  have hclose := jsTrunc_close (x * 32768)
  unfold floatToPcm16 pcm16ToFloat
  rw [toInt16_id _ hr1 hr2]
  have hrw : ((jsTrunc (x * 32768) : ℤ) : ℚ) / 32768 - x
      = (((jsTrunc (x * 32768) : ℤ) : ℚ) - x * 32768) / 32768 := by ring
  rw [hrw, abs_div]
  have habs : |(32768:ℚ)| = 32768 := by norm_num
  rw [habs, div_le_div_iff₀ (by norm_num) (by norm_num)]
  nlinarith [le_of_lt hclose]

theorem float_pcm16_roundtrip_amended_witness :
    -1 ≤ (0 : ℚ) ∧ (0 : ℚ) < 1 ∧ |pcm16ToFloat (floatToPcm16 0) - 0| ≤ 1 / 32768 :=
  ⟨by norm_num, by norm_num, float_pcm16_roundtrip_amended 0 (by norm_num) (by norm_num)⟩

end LiveVoice
